import Mathlib

/-!
Shallow embedding of the Rules (Policy) Evaluation Engine of the
school-management backend (source: the RulesService class in the
services layer, together with its Prisma-backed rule store queries).

Modelling conventions:
* JavaScript numbers compared by the engine are modelled as `Int`
  (`Option Int` where `NaN` can arise: `none` plays the role of `NaN`).
* JavaScript `Date` objects are modelled by the observations the engine
  makes of them: `valueOf` in milliseconds, `getHours`, `getMinutes`.
* JSON values in rule payloads and resource data are modelled by
  `JValue`: scalars and flat arrays of scalars (the engine only ever
  inspects arrays of scalars, via the `in`, `nin` and `between`
  threshold operators); JavaScript objects are association lists.
* The dynamic `Function`-constructor string-expression evaluator
  reachable from the `expression` condition type is not translatable;
  the development is parameterised by an arbitrary `jsEval` standing
  for it, so theorems quantifying over `jsEval` cover the real one.
* Database access is modelled by passing the stores (rule list,
  exception list) and the query clock `dbNow` explicitly.
-/

namespace RulesEngine

/-- Scalar JSON values. -/
inductive JPrim where
  | jnull : JPrim
  | jbool : Bool → JPrim
  | jnum : Int → JPrim
  | jstr : String → JPrim
deriving DecidableEq, Repr

/-- JSON-like runtime values: scalars or flat arrays of scalars. -/
inductive JValue where
  | prim : JPrim → JValue
  | jarr : List JPrim → JValue
deriving DecidableEq, Repr

/-- Shorthand for a null value. -/
def JValue.jnull : JValue := .prim .jnull

/-- Shorthand for a boolean value. -/
def JValue.jbool (b : Bool) : JValue := .prim (.jbool b)

/-- Shorthand for a numeric value. -/
def JValue.jnum (n : Int) : JValue := .prim (.jnum n)

/-- Shorthand for a string value. -/
def JValue.jstr (s : String) : JValue := .prim (.jstr s)

/-- Observations the engine makes of a JavaScript Date: `valueOf` in
milliseconds plus `getHours` and `getMinutes`. -/
structure DateTime where
  millis : Int
  hours : Int
  minutes : Int
deriving DecidableEq, Repr

/-- Digit-sequence parser accumulating a natural number; any non-digit
makes the whole parse fail (the `NaN` outcome). -/
def digitsToNatAux (acc : Nat) : List Char → Option Nat
  | [] => some acc
  | c :: cs =>
    if c.isDigit then digitsToNatAux (acc * 10 + (c.toNat - '0'.toNat)) cs
    else none

/-- Integer parser over the trimmed character list: empty coerces to
`0`, an optional sign precedes the digits, anything else is `NaN`. -/
def parseIntChars : List Char → Option Int
  | [] => some 0
  | '+' :: cs =>
    match cs with
    | [] => none
    | _ => (digitsToNatAux 0 cs).map Int.ofNat
  | '-' :: cs =>
    match cs with
    | [] => none
    | _ => (digitsToNatAux 0 cs).map (fun n => -(Int.ofNat n))
  | cs => (digitsToNatAux 0 cs).map Int.ofNat

/-- Whitespace trim on both ends of a character list. -/
def trimChars (l : List Char) : List Char :=
  ((l.dropWhile Char.isWhitespace).reverse.dropWhile Char.isWhitespace).reverse

/-- JavaScript `Number(string)` restricted to integral results; `none`
models `NaN`. The empty (or all-blank) string coerces to `0`. -/
def strToNumber (s : String) : Option Int :=
  parseIntChars (trimChars s.toList)

/-- JavaScript `Number(value)` on a scalar; `none` models `NaN`. -/
def jsPrimToNumber : JPrim → Option Int
  | .jnull => some 0
  | .jbool b => some (if b then 1 else 0)
  | .jnum n => some n
  | .jstr s => strToNumber s

/-- JavaScript `Number(value)`; `none` models `NaN`. A one-element array
coerces through its element, the empty array to `0`. -/
def jsToNumber : JValue → Option Int
  | .prim p => jsPrimToNumber p
  | .jarr [] => some 0
  | .jarr [x] => jsPrimToNumber x
  | .jarr (_ :: _ :: _) => none

/-- JavaScript `String(value)` on a scalar. -/
def jsPrimToString : JPrim → String
  | .jnull => "null"
  | .jbool b => if b then "true" else "false"
  | .jnum n => toString n
  | .jstr s => s

/-- Inside an array join, `null` renders as the empty string. -/
def jsPrimToStringElem : JPrim → String
  | .jnull => ""
  | p => jsPrimToString p

/-- JavaScript `String(value)`: arrays join their elements with commas. -/
def jsToString : JValue → String
  | .prim p => jsPrimToString p
  | .jarr xs => String.intercalate "," (xs.map jsPrimToStringElem)

/-- JavaScript strict equality on the modelled values; arrays compare by
reference, which is never shared between a stored payload and the
request context, hence `false`. -/
def jsStrictEq : JValue → JValue → Bool
  | .prim a, .prim b => a == b
  | _, _ => false

/-- Substring scan used by the `contains` operator. -/
def strContainsAux (needle : List Char) : List Char → Bool
  | [] => needle.isPrefixOf ([] : List Char)
  | c :: cs => needle.isPrefixOf (c :: cs) || strContainsAux needle cs

/-- JavaScript `hay.includes(needle)` on strings. -/
def strContains (hay needle : String) : Bool :=
  strContainsAux needle.toList hay.toList

/-- Lookup in a JavaScript-object association list (first binding wins;
objects built by the engine keep keys unique). -/
def objGet (m : List (String × JValue)) (k : String) : Option JValue :=
  (m.find? (fun p => p.1 == k)).map (·.2)

/-- Assignment compatible with object-spread semantics: an existing key
is overwritten in place, a new key is appended. -/
def objSet (m : List (String × JValue)) (k : String) (v : JValue) :
    List (String × JValue) :=
  if m.any (fun p => p.1 == k) then
    m.map (fun p => if p.1 == k then (k, v) else p)
  else m ++ [(k, v)]

/-- JavaScript object spread `{...a, ...b}`. -/
def objMerge (a b : List (String × JValue)) : List (String × JValue) :=
  b.foldl (fun acc p => objSet acc p.1 p.2) a

/-- Last binding of a key in a list; with spread semantics later entries
win, so this is the value the merged object exposes. -/
def lastAssoc (m : List (String × JValue)) (k : String) : Option JValue :=
  (m.reverse.find? (fun p => p.1 == k)).map (·.2)

/-- JavaScript `a || b` on an optional string field: `undefined` and the
empty string both fall through to the fallback. -/
def jsStrOr (a : Option String) (fallback : String) : String :=
  match a with
  | some s => if s = "" then fallback else s
  | none => fallback

/-- JavaScript `a || b` where both sides are optional strings. -/
def jsOptStrOr (a b : Option String) : Option String :=
  match a with
  | some s => if s = "" then b else some s
  | none => b

/-- Deduplication keeping first occurrences, as `[...new Set(xs)]`. -/
def dedupKeepFirst (xs : List String) : List String :=
  xs.foldl (fun acc x => if acc.contains x then acc else acc ++ [x]) []

mutual
/-- Tagged condition record, translated from the RuleCondition type and
the dynamic dispatch in `evaluateCondition`: every payload field is
optional, the `type` string selects which ones are read. The nested
`conditions` list of a `composite` condition makes the type recursive;
an absent (`undefined`) list is modelled as the empty list, which the
source treats identically. -/
inductive RuleCondition where
  | mk :
      (type : Option String) →
      (expression : Option String) →
      (field : Option String) →
      (operator : Option String) →
      (value : Option JValue) →
      (timeRange : Option (String × String)) →
      (dateRange : Option (Option Int × Option Int)) →
      (roles : Option (List String)) →
      (permissions : Option (List String)) →
      (logic : Option String) →
      (conditions : RuleConditionList) → RuleCondition

/-- List of nested conditions of a `composite` condition. -/
inductive RuleConditionList where
  | nil : RuleConditionList
  | cons : RuleCondition → RuleConditionList → RuleConditionList
end

/-- The `type` tag of a condition. -/
def RuleCondition.type : RuleCondition → Option String
  | .mk t _ _ _ _ _ _ _ _ _ _ => t

/-- The `expression` payload of a condition. -/
def RuleCondition.expression : RuleCondition → Option String
  | .mk _ e _ _ _ _ _ _ _ _ _ => e

/-- The `field` payload of a condition. -/
def RuleCondition.field : RuleCondition → Option String
  | .mk _ _ f _ _ _ _ _ _ _ _ => f

/-- The `operator` payload of a condition. -/
def RuleCondition.operator : RuleCondition → Option String
  | .mk _ _ _ o _ _ _ _ _ _ _ => o

/-- The `value` payload of a condition. -/
def RuleCondition.value : RuleCondition → Option JValue
  | .mk _ _ _ _ v _ _ _ _ _ _ => v

/-- The `timeRange` payload (start and end clock strings). -/
def RuleCondition.timeRange : RuleCondition → Option (String × String)
  | .mk _ _ _ _ _ tr _ _ _ _ _ => tr

/-- The `dateRange` payload; each bound is the result of parsing the
stored string with `new Date`, `none` standing for an invalid date. -/
def RuleCondition.dateRange : RuleCondition → Option (Option Int × Option Int)
  | .mk _ _ _ _ _ _ dr _ _ _ _ => dr

/-- The `roles` payload of a condition. -/
def RuleCondition.roles : RuleCondition → Option (List String)
  | .mk _ _ _ _ _ _ _ r _ _ _ => r

/-- The `permissions` payload of a condition. -/
def RuleCondition.permissions : RuleCondition → Option (List String)
  | .mk _ _ _ _ _ _ _ _ p _ _ => p

/-- The `logic` payload (`AND` by default, `OR` when equal to "OR"). -/
def RuleCondition.logic : RuleCondition → Option String
  | .mk _ _ _ _ _ _ _ _ _ l _ => l

/-- The nested conditions of a `composite` condition. -/
def RuleCondition.conditions : RuleCondition → RuleConditionList
  | .mk _ _ _ _ _ _ _ _ _ _ cs => cs

/-- Emptiness test on a nested condition list. -/
def RuleConditionList.isEmpty : RuleConditionList → Bool
  | .nil => true
  | .cons _ _ => false

/-- The user identity inside an evaluation context. -/
structure UserCtx where
  id : String
  roles : List String
  permissions : List String
deriving DecidableEq, Repr

/-- Immutable evaluation context. In the source `timestamp` is optional
and defaults to the wall clock (`new Date()`) wherever it is read; the
embedding models it as present, the wall-clock default being one more
explicit input of a call. -/
structure RuleEvaluationContext where
  user : UserCtx
  action : String
  moduleName : String
  resourceData : List (String × JValue)
  timestamp : DateTime
deriving DecidableEq, Repr

/-- Action payload attached to a rule. -/
structure RuleAction where
  message : Option String
  modifications : Option (List (String × JValue))
  approvers : Option (List String)
deriving DecidableEq, Repr

/-- Split of a character list at every occurrence of a separator, the
way the JavaScript single-character `split` behaves (always at least
one, possibly empty, part). -/
def splitCharAux (sep : Char) : List Char → List (List Char)
  | [] => [[]]
  | c :: cs =>
    match splitCharAux sep cs with
    | [] => [[]]
    | h :: t => if c = sep then [] :: h :: t else (c :: h) :: t

/-- JavaScript `s.split(sep)` for a one-character separator. -/
def splitChar (sep : Char) (s : String) : List String :=
  (splitCharAux sep s.toList).map List.asString

/-- One hour-and-minute pair parsed from an `HH:mm` string the way the
source does: split on the colon, coerce each part with `Number`, take
the first two parts, a missing part behaving as `NaN` (`none`). -/
def clockHM (s : String) : Option Int × Option Int :=
  match (splitChar ':' s).map strToNumber with
  | [] => (none, none)
  | [h] => (h, none)
  | h :: m :: _ => (h, m)

/-- Threshold operator dispatch over the already-fetched field value. -/
def thresholdCompare (op : String) (fieldValue v : JValue) : Bool :=
  if op = "eq" then jsStrictEq fieldValue v
  else if op = "ne" then !(jsStrictEq fieldValue v)
  else if op = "gt" then
    match jsToNumber fieldValue, jsToNumber v with
    | some x, some y => x > y
    | _, _ => false
  else if op = "gte" then
    match jsToNumber fieldValue, jsToNumber v with
    | some x, some y => x ≥ y
    | _, _ => false
  else if op = "lt" then
    match jsToNumber fieldValue, jsToNumber v with
    | some x, some y => x < y
    | _, _ => false
  else if op = "lte" then
    match jsToNumber fieldValue, jsToNumber v with
    | some x, some y => x ≤ y
    | _, _ => false
  else if op = "in" then
    match v, fieldValue with
    | .jarr xs, .prim p => xs.contains p
    | _, _ => false
  else if op = "nin" then
    match v, fieldValue with
    | .jarr xs, .prim p => !(xs.contains p)
    | .jarr _, .jarr _ => true
    | _, _ => false
  else if op = "contains" then
    strContains (jsToString fieldValue).toLower (jsToString v).toLower
  else if op = "between" then
    match v with
    | .jarr [a, b] =>
      match jsToNumber fieldValue, jsPrimToNumber a, jsPrimToNumber b with
      | some x, some lo, some hi => lo ≤ x ∧ x ≤ hi
      | _, _, _ => false
    | _ => false
  else false

/-- Translation of `evaluateThreshold`: guard the falsy payload fields,
fetch the resource field (missing or null yields `false`), dispatch on
the operator string. -/
def evaluateThreshold (c : RuleCondition) (ctx : RuleEvaluationContext) : Bool :=
  match c.field, c.operator, c.value with
  | some f, some op, some v =>
    if f = "" ∨ op = "" then false
    else
      match objGet ctx.resourceData f with
      | none => false
      | some .jnull => false
      | some fieldValue => thresholdCompare op fieldValue v
  | _, _, _ => false

/-- Translation of `evaluateTimeBased`: a clock-of-day window compared
in minutes-of-day, otherwise an absolute date range compared in
milliseconds; any `NaN` bound yields `false`. -/
def evaluateTimeBased (c : RuleCondition) (ctx : RuleEvaluationContext) : Bool :=
  let now := ctx.timestamp
  match c.timeRange with
  | some (st, en) =>
    let currentTime := now.hours * 60 + now.minutes
    (match clockHM st, clockHM en with
     | (some sh, some sm), (some eh, some em) =>
       let startTime := sh * 60 + sm
       let endTime := eh * 60 + em
       currentTime ≥ startTime ∧ currentTime ≤ endTime
     | _, _ => false)
  | none =>
    match c.dateRange with
    | some (some s, some e) => now.millis ≥ s ∧ now.millis ≤ e
    | some _ => false
    | none => false

/-- Translation of `evaluateRoleBased`: true when the declared role set
is nonempty and intersects the user role list. -/
def evaluateRoleBased (c : RuleCondition) (ctx : RuleEvaluationContext) : Bool :=
  match c.roles with
  | none => false
  | some [] => false
  | some rs => rs.any (fun role => ctx.user.roles.contains role)

/-- Translation of `evaluatePermissionBased`. -/
def evaluatePermissionBased (c : RuleCondition) (ctx : RuleEvaluationContext) : Bool :=
  match c.permissions with
  | none => false
  | some [] => false
  | some ps => ps.any (fun p => ctx.user.permissions.contains p)

/-- Translation of `evaluateExpression`: a falsy expression string is
`false`; otherwise the sanitise-substitute-Function pipeline, abstracted
as `jsEval`, runs under a catch that converts any failure to `false`. -/
def evaluateExpression (jsEval : String → RuleEvaluationContext → Except String Bool)
    (c : RuleCondition) (ctx : RuleEvaluationContext) : Bool :=
  match c.expression with
  | none => false
  | some e =>
    if e = "" then false
    else
      match jsEval e ctx with
      | .ok b => b
      | .error _ => false

mutual
/-- Translation of `evaluateCondition`: dynamic dispatch on the `type`
string; a missing, empty or unknown type yields `false`, and every
branch is guarded so the function is total (the source wraps the body
in a catch returning `false`). -/
def evaluateCondition (jsEval : String → RuleEvaluationContext → Except String Bool)
    (c : RuleCondition) (ctx : RuleEvaluationContext) : Bool :=
  match c with
  | .mk ty _ _ _ _ _ _ _ _ lg cs =>
    match ty with
    | none => false
    | some t =>
      if t = "" then false
      else if t = "expression" then evaluateExpression jsEval c ctx
      else if t = "threshold" then evaluateThreshold c ctx
      else if t = "time_based" then evaluateTimeBased c ctx
      else if t = "role_based" then evaluateRoleBased c ctx
      else if t = "permission_based" then evaluatePermissionBased c ctx
      else if t = "composite" then
        if cs.isEmpty then false
        else
          let results := evaluateConditionList jsEval cs ctx
          if lg = some "OR" then results.any id else results.all id
      else false

/-- Pointwise evaluation of the nested conditions of a composite. -/
def evaluateConditionList (jsEval : String → RuleEvaluationContext → Except String Bool)
    (cs : RuleConditionList) (ctx : RuleEvaluationContext) : List Bool :=
  match cs with
  | .nil => []
  | .cons c rest => evaluateCondition jsEval c ctx :: evaluateConditionList jsEval rest ctx
end

/-- Persisted rule row. Date columns are milliseconds; `effectiveTo` and
`parentRuleId` are nullable. -/
structure Rule where
  id : String
  name : String
  moduleName : String
  description : Option String
  category : String
  conditionType : String
  conditionPayload : RuleCondition
  actionType : String
  actionPayload : Option RuleAction
  severityLevel : String
  priority : Int
  isActive : Bool
  effectiveFrom : Int
  effectiveTo : Option Int
  version : Int
  parentRuleId : Option String
  createdBy : String
  createdAt : Int

/-- Persisted rule-exception row. -/
structure RuleException where
  userId : String
  ruleId : String
  isActive : Bool
  effectiveFrom : Int
  effectiveTo : Option Int
deriving DecidableEq, Repr

/-- Terminal decision of one evaluation. -/
inductive Decision where
  | ALLOWED | BLOCKED | MODIFIED | WARNING | APPROVAL_REQUIRED | ERROR
deriving DecidableEq, Repr

/-- Triggered-rule summary recorded in the result. -/
structure TriggeredRule where
  ruleId : String
  ruleName : String
  severity : String
  action : String
deriving DecidableEq, Repr

/-- Evaluation result returned to the caller. -/
structure RuleEvaluationResult where
  decision : Decision
  message : String
  triggeredRules : List TriggeredRule
  modifications : Option (List (String × JValue))
  requiresApproval : Option Bool
  approvers : Option (List String)
  executionTimeMs : Int
  error : Option String
deriving DecidableEq, Repr

/-- Translation of `createResult`; the elapsed duration is an explicit
input since the embedding has no wall clock. -/
def createResult (decision : Decision) (triggeredRules : List TriggeredRule)
    (elapsed : Int) (message : String)
    (modifications : Option (List (String × JValue)))
    (requiresApproval : Option Bool) (approvers : Option (List String)) :
    RuleEvaluationResult :=
  { decision := decision
    message := message
    triggeredRules := triggeredRules
    modifications := modifications
    requiresApproval := requiresApproval
    approvers := approvers
    executionTimeMs := elapsed
    error := none }

/-- Mutable loop state of `evaluateRules` between rules. -/
structure EvalState where
  triggeredRules : List TriggeredRule
  finalDecision : Decision
  finalMessage : String
  modifications : List (String × JValue)
  requiresApproval : Bool
  approvers : List String
deriving DecidableEq, Repr

/-- Loop state at entry of the rule loop. -/
def initState : EvalState :=
  { triggeredRules := []
    finalDecision := .ALLOWED
    finalMessage := ""
    modifications := []
    requiresApproval := false
    approvers := [] }

/-- The effectiveness skip test at the top of the loop body:
`rule.effectiveFrom > now` or `effectiveTo` set and `< now`. -/
def ruleSkipped (rule : Rule) (now : DateTime) : Bool :=
  decide (rule.effectiveFrom > now.millis) ||
    (match rule.effectiveTo with
     | some t => decide (t < now.millis)
     | none => false)

/-- Triggered-rule summary pushed when a condition holds. -/
def mkTriggered (rule : Rule) : TriggeredRule :=
  { ruleId := rule.id
    ruleName := rule.name
    severity := rule.severityLevel
    action := rule.actionType }

/-- State update of the `MODIFY` action branch: the decision moves to
`MODIFIED` only when it is neither `BLOCKED` nor `APPROVAL_REQUIRED`,
the modification map is merged unconditionally, the message is set only
when still empty. -/
def modifyStep (s : EvalState) (rule : Rule) : EvalState :=
  let s1 := { s with triggeredRules := s.triggeredRules ++ [mkTriggered rule] }
  let s2 :=
    if s1.finalDecision ≠ .BLOCKED ∧ s1.finalDecision ≠ .APPROVAL_REQUIRED then
      { s1 with finalDecision := .MODIFIED }
    else s1
  let s3 :=
    match rule.actionPayload.bind RuleAction.modifications with
    | some mods => { s2 with modifications := objMerge s2.modifications mods }
    | none => s2
  let msg := jsStrOr (rule.actionPayload.bind RuleAction.message)
    ("Action modified by rule: " ++ rule.name)
  if s3.finalMessage = "" then { s3 with finalMessage := msg } else s3

/-- State update of the `REQUIRE_APPROVAL` action branch. -/
def approvalStep (s : EvalState) (rule : Rule) : EvalState :=
  let s1 := { s with triggeredRules := s.triggeredRules ++ [mkTriggered rule] }
  if s1.finalDecision ≠ .BLOCKED then
    { s1 with
        finalDecision := .APPROVAL_REQUIRED
        requiresApproval := true
        approvers :=
          match rule.actionPayload.bind RuleAction.approvers with
          | some aps => dedupKeepFirst (s1.approvers ++ aps)
          | none => s1.approvers
        finalMessage :=
          jsStrOr (rule.actionPayload.bind RuleAction.message)
            ("Approval required by rule: " ++ rule.name) }
  else s1

/-- State update of the `WARN` action branch. -/
def warnStep (s : EvalState) (rule : Rule) : EvalState :=
  let s1 := { s with triggeredRules := s.triggeredRules ++ [mkTriggered rule] }
  if s1.finalDecision = .ALLOWED then
    { s1 with
        finalDecision := .WARNING
        finalMessage :=
          jsStrOr (rule.actionPayload.bind RuleAction.message)
            ("Warning from rule: " ++ rule.name) }
  else s1

/-- Result returned from inside the loop by the `BLOCK` branch: the
accumulated modification, approval and approver state is not passed to
`createResult` there. -/
def blockResult (s : EvalState) (rule : Rule) (elapsed : Int) :
    RuleEvaluationResult :=
  createResult .BLOCKED (s.triggeredRules ++ [mkTriggered rule]) elapsed
    (jsStrOr (rule.actionPayload.bind RuleAction.message)
      ("Action blocked by rule: " ++ rule.name))
    none none none

/-- Result built after the loop runs to completion. -/
def finalResult (s : EvalState) (elapsed : Int) : RuleEvaluationResult :=
  createResult s.finalDecision s.triggeredRules elapsed s.finalMessage
    (some s.modifications) (some s.requiresApproval) (some s.approvers)

/-- Translation of the rule loop of `evaluateRules`. The per-rule
condition evaluation is abstracted as `evalCondE`, an effectful call
whose failure (a rejected promise or thrown error) the surrounding
per-rule catch turns into a skip; the engine instantiates it with
`evaluateCondition`, which never fails. A `BLOCK` hit returns from
inside the loop; every other action folds the state and continues. -/
def evalLoop (evalCondE : RuleCondition → RuleEvaluationContext → Except String Bool)
    (ctx : RuleEvaluationContext) (elapsed : Int) :
    List Rule → EvalState → RuleEvaluationResult
  | [], s => finalResult s elapsed
  | rule :: rest, s =>
    if ruleSkipped rule ctx.timestamp then
      evalLoop evalCondE ctx elapsed rest s
    else
      match evalCondE rule.conditionPayload ctx with
      | .error _ => evalLoop evalCondE ctx elapsed rest s
      | .ok conditionMet =>
        if conditionMet then
          if rule.actionType = "BLOCK" then blockResult s rule elapsed
          else if rule.actionType = "REQUIRE_APPROVAL" then
            evalLoop evalCondE ctx elapsed rest (approvalStep s rule)
          else if rule.actionType = "MODIFY" then
            evalLoop evalCondE ctx elapsed rest (modifyStep s rule)
          else if rule.actionType = "WARN" then
            evalLoop evalCondE ctx elapsed rest (warnStep s rule)
          else
            evalLoop evalCondE ctx elapsed rest
              { s with triggeredRules := s.triggeredRules ++ [mkTriggered rule] }
        else evalLoop evalCondE ctx elapsed rest s

/-- The filter of the rule-store query issued by `getCachedRules`:
module match, active flag, effective window open at the query clock. -/
def activeRuleFilter (moduleName : String) (dbNow : DateTime) (r : Rule) : Bool :=
  r.moduleName == moduleName && r.isActive &&
    decide (r.effectiveFrom ≤ dbNow.millis) &&
    (match r.effectiveTo with
     | none => true
     | some t => decide (dbNow.millis ≤ t))

/-- The order the rule-store query sorts by: ascending priority, ties
broken by ascending creation time. -/
def ruleLE (a b : Rule) : Prop :=
  a.priority < b.priority ∨ (a.priority = b.priority ∧ a.createdAt ≤ b.createdAt)

instance : DecidableRel ruleLE := fun a b => by
  unfold ruleLE; infer_instance

instance : IsTotal Rule ruleLE :=
  ⟨fun a b => by unfold ruleLE; omega⟩

instance : IsTrans Rule ruleLE :=
  ⟨fun a b c hab hbc => by unfold ruleLE at *; omega⟩

/-- Translation of the `getCachedRules` store query (the fresh-cache
case): filter by module, active flag and effective window, ordered by
ascending priority then ascending creation time. -/
def getActiveRules (store : List Rule) (moduleName : String) (dbNow : DateTime) :
    List Rule :=
  List.insertionSort ruleLE (store.filter (activeRuleFilter moduleName dbNow))

/-- The per-exception match of the `checkRuleException` store query:
same user, a covered rule, active, effective window containing the
query clock (a null `effectiveTo` does not match the `gte` filter). -/
def exceptionMatches (userId : String) (ruleIds : List String) (dbNow : DateTime)
    (e : RuleException) : Bool :=
  e.userId == userId && ruleIds.contains e.ruleId && e.isActive &&
    decide (e.effectiveFrom ≤ dbNow.millis) &&
    (match e.effectiveTo with
     | some t => decide (dbNow.millis ≤ t)
     | none => false)

/-- Translation of `checkRuleException`: an empty candidate list short
circuits to `false`, otherwise any matching exception row wins. -/
def checkRuleException (exceptions : List RuleException) (userId : String)
    (ruleIds : List String) (dbNow : DateTime) : Bool :=
  if ruleIds.isEmpty then false
  else exceptions.any (exceptionMatches userId ruleIds dbNow)

/-- The result of the top-level catch of `evaluateRules` when context
validation fails. -/
def invalidContextResult (elapsed : Int) : RuleEvaluationResult :=
  { decision := .ERROR
    message := "Rule evaluation failed"
    triggeredRules := []
    modifications := none
    requiresApproval := none
    approvers := none
    executionTimeMs := elapsed
    error := some "Invalid evaluation context: missing required fields" }

/-- Translation of `evaluateRules`, parameterised by the per-rule
condition call `evalCondE`: validate the context, query the store for
the module rule set, short-circuit on an empty set and on a user
exception, then run the loop. -/
def evaluateRulesWith
    (evalCondE : RuleCondition → RuleEvaluationContext → Except String Bool)
    (store : List Rule) (exceptions : List RuleException)
    (ctx : RuleEvaluationContext) (dbNow : DateTime) (elapsed : Int) :
    RuleEvaluationResult :=
  if ctx.user.id = "" ∨ ctx.moduleName = "" ∨ ctx.action = "" then
    invalidContextResult elapsed
  else
    let rules := getActiveRules store ctx.moduleName dbNow
    if rules.isEmpty then
      createResult .ALLOWED [] elapsed "No active rules found" none none none
    else if checkRuleException exceptions ctx.user.id (rules.map Rule.id) dbNow then
      createResult .ALLOWED [] elapsed "User has rule exception" none none none
    else
      evalLoop evalCondE ctx elapsed rules initState

/-- The condition call the engine actually makes: `evaluateCondition`
wrapped as an effectful call that never fails. -/
def evaluateConditionE (jsEval : String → RuleEvaluationContext → Except String Bool)
    (c : RuleCondition) (ctx : RuleEvaluationContext) : Except String Bool :=
  .ok (evaluateCondition jsEval c ctx)

/-- The engine entry point: `evaluateRules` with the real condition
evaluator. -/
def evaluateRules (jsEval : String → RuleEvaluationContext → Except String Bool)
    (store : List Rule) (exceptions : List RuleException)
    (ctx : RuleEvaluationContext) (dbNow : DateTime) (elapsed : Int) :
    RuleEvaluationResult :=
  evaluateRulesWith (evaluateConditionE jsEval) store exceptions ctx dbNow elapsed

/-- Update DTO of `updateRule`: every field optional. -/
structure UpdateRuleDTO where
  name : Option String
  description : Option String
  conditionPayload : Option RuleCondition
  actionPayload : Option RuleAction
  severityLevel : Option String
  priority : Option Int
  isActive : Option Bool
  effectiveFrom : Option Int
  effectiveTo : Option Int

/-- The new rule row `updateRule` inserts: DTO fields fall back to the
parent following the JavaScript operators the source uses (`||` for
strings and objects, an `undefined` test for `priority` and `isActive`),
except `effectiveTo`, which is taken from the DTO as-is; `version` is
the parent version plus one and `parentRuleId` links to the parent. -/
def newVersionRule (existingRule : Rule) (data : UpdateRuleDTO) (ruleId : String)
    (updatedBy : String) (newId : String) (nowMs : Int) : Rule :=
  { id := newId
    name := jsStrOr data.name existingRule.name
    moduleName := existingRule.moduleName
    description := jsOptStrOr data.description existingRule.description
    category := existingRule.category
    conditionType := existingRule.conditionType
    conditionPayload := data.conditionPayload.getD existingRule.conditionPayload
    actionType := existingRule.actionType
    actionPayload :=
      match data.actionPayload with
      | some p => some p
      | none => existingRule.actionPayload
    severityLevel := jsStrOr data.severityLevel existingRule.severityLevel
    priority := data.priority.getD existingRule.priority
    isActive := data.isActive.getD existingRule.isActive
    effectiveFrom := data.effectiveFrom.getD existingRule.effectiveFrom
    effectiveTo := data.effectiveTo
    version := existingRule.version + 1
    parentRuleId := some ruleId
    createdBy := updatedBy
    createdAt := nowMs }

/-- Translation of `updateRule` over an explicit store: find the parent
by id (`Rule not found` otherwise), insert the new version, then set
`isActive = false` on the row with the parent id. Returns the new row
together with the updated store. -/
def updateRule (store : List Rule) (ruleId : String) (data : UpdateRuleDTO)
    (updatedBy : String) (newId : String) (nowMs : Int) :
    Except String (Rule × List Rule) :=
  match store.find? (fun r => r.id == ruleId) with
  | none => .error "Rule not found"
  | some existingRule =>
    let newVersion := newVersionRule existingRule data ruleId updatedBy newId nowMs
    let afterCreate := store ++ [newVersion]
    let afterDeactivate :=
      afterCreate.map (fun r => if r.id == ruleId then { r with isActive := false } else r)
    .ok (newVersion, afterDeactivate)

/-! ### Concrete fixtures used by witnesses and counterexamples -/

/-- A stand-in for the dynamic string-expression evaluator that always
fails; the claims under scrutiny never reach it. -/
def jsEvalNone : String → RuleEvaluationContext → Except String Bool :=
  fun _ _ => .error "dynamic evaluation not modelled"

/-- A per-rule condition call that always fails, modelling a rejected
condition evaluation. -/
def failingCondE : RuleCondition → RuleEvaluationContext → Except String Bool :=
  fun _ _ => .error "boom"

/-- A sample evaluation context for a teacher submitting a grade. -/
def sampleCtx : RuleEvaluationContext :=
  { user := { id := "u1", roles := ["TEACHER"], permissions := [] }
    action := "submit"
    moduleName := "grades"
    resourceData := [("percentage", JValue.jnum 30)]
    timestamp := { millis := 1000000, hours := 10, minutes := 30 } }

/-- The store query clock used by the fixtures. -/
def dbNow0 : DateTime := { millis := 1000000, hours := 10, minutes := 30 }

/-- A role-based condition every fixture context satisfies. -/
def condRoleTeacher : RuleCondition :=
  .mk (some "role_based") none none none none none none (some ["TEACHER"])
    none none .nil

/-- A rule template: active, effective, role-based condition. -/
def baseRule : Rule :=
  { id := "r1"
    name := "base"
    moduleName := "grades"
    description := none
    category := "ACADEMIC"
    conditionType := "role_based"
    conditionPayload := condRoleTeacher
    actionType := "ALLOW"
    actionPayload := none
    severityLevel := "MEDIUM"
    priority := 10
    isActive := true
    effectiveFrom := 0
    effectiveTo := none
    version := 1
    parentRuleId := none
    createdBy := "admin"
    createdAt := 1 }

/-- A blocking rule fixture. -/
def blockRule : Rule := { baseRule with id := "r1", actionType := "BLOCK" }

/-- An approval-requiring rule fixture of highest priority. -/
def approvalRule : Rule :=
  { baseRule with
      id := "ra"
      name := "approval"
      actionType := "REQUIRE_APPROVAL"
      priority := 1
      actionPayload := some { message := none, modifications := none, approvers := some ["head"] } }

/-- A modifying rule fixture of lower priority than `approvalRule`. -/
def modifyRule : Rule :=
  { baseRule with
      id := "rm"
      name := "modify"
      actionType := "MODIFY"
      priority := 2
      actionPayload :=
        some { message := none, modifications := some [("x", JValue.jnum 1)], approvers := none } }

/-- A warning rule fixture named A. -/
def warnRuleA : Rule :=
  { baseRule with id := "rwa", name := "A", actionType := "WARN", priority := 10, createdAt := 5 }

/-- A warning rule fixture named B with the same priority and creation
time as `warnRuleA`. -/
def warnRuleB : Rule :=
  { baseRule with id := "rwb", name := "B", actionType := "WARN", priority := 10, createdAt := 5 }

/-- An exception row covering `blockRule` for the sample user, active
and effective at `dbNow0`. -/
def sampleException : RuleException :=
  { userId := "u1", ruleId := "r1", isActive := true, effectiveFrom := 0,
    effectiveTo := some 2000000 }

/-! ### C1: a triggered BLOCK rule terminates the loop with BLOCKED -/

/-- C1: when the loop reaches an effective rule whose condition call
returns true and whose action type is BLOCK, the returned decision is
BLOCKED, and the result does not depend on the rules after it in the
order — no later rule has its condition evaluated. -/
theorem block_rule_terminates_loop
    (evalCondE : RuleCondition → RuleEvaluationContext → Except String Bool)
    (ctx : RuleEvaluationContext) (elapsed : Int) (s : EvalState)
    (rule : Rule) (rest rest' : List Rule)
    (hEff : ruleSkipped rule ctx.timestamp = false)
    (hCond : evalCondE rule.conditionPayload ctx = .ok true)
    (hAct : rule.actionType = "BLOCK") :
    (evalLoop evalCondE ctx elapsed (rule :: rest) s).decision = .BLOCKED
    ∧ evalLoop evalCondE ctx elapsed (rule :: rest) s
        = evalLoop evalCondE ctx elapsed (rule :: rest') s := by
  simp [evalLoop, hEff, hCond, hAct, blockResult, createResult]

/-- Witness for C1 at a concrete blocking rule: the loop result is
BLOCKED and ignores the trailing rule. -/
theorem block_rule_terminates_loop_witness :
    (evalLoop (evaluateConditionE jsEvalNone) sampleCtx 0 [blockRule, warnRuleA]
        initState).decision = .BLOCKED
    ∧ evalLoop (evaluateConditionE jsEvalNone) sampleCtx 0 [blockRule, warnRuleA] initState
        = evalLoop (evaluateConditionE jsEvalNone) sampleCtx 0 [blockRule] initState :=
  block_rule_terminates_loop (evaluateConditionE jsEvalNone) sampleCtx 0 initState
    blockRule [warnRuleA] [] (by decide) rfl rfl

/-! ### C6: a failing condition evaluation isolates to its rule -/

/-- C6: when the condition call of a rule fails, the per-rule catch
makes the loop continue with the remaining rules and an unchanged
state — exactly the result produced when the condition is false. -/
theorem failing_condition_skips_rule
    (evalCondE : RuleCondition → RuleEvaluationContext → Except String Bool)
    (ctx : RuleEvaluationContext) (elapsed : Int) (s : EvalState)
    (rule : Rule) (rest : List Rule) :
    (∀ e, evalCondE rule.conditionPayload ctx = .error e →
      evalLoop evalCondE ctx elapsed (rule :: rest) s
        = evalLoop evalCondE ctx elapsed rest s)
    ∧ (evalCondE rule.conditionPayload ctx = .ok false →
      evalLoop evalCondE ctx elapsed (rule :: rest) s
        = evalLoop evalCondE ctx elapsed rest s) := by
  constructor
  · intro e h
    cases hsk : ruleSkipped rule ctx.timestamp <;> simp [evalLoop, hsk, h]
  · intro h
    cases hsk : ruleSkipped rule ctx.timestamp <;> simp [evalLoop, hsk, h]

/-- Witness for C6 at a concrete failing condition call. -/
theorem failing_condition_skips_rule_witness :
    evalLoop failingCondE sampleCtx 0 [blockRule, warnRuleA] initState
      = evalLoop failingCondE sampleCtx 0 [warnRuleA] initState :=
  (failing_condition_skips_rule failingCondE sampleCtx 0 initState blockRule
    [warnRuleA]).1 "boom" rfl

/-! ### C9: WARN only fires from ALLOWED; first WARN message sticks -/

/-- Helper: over a run of WARN-only rules, a decision that is no longer
ALLOWED and the captured message survive to the final result. -/
theorem evalLoop_warnOnly_fields
    (evalCondE : RuleCondition → RuleEvaluationContext → Except String Bool)
    (ctx : RuleEvaluationContext) (elapsed : Int) :
    ∀ (rules : List Rule) (s : EvalState), s.finalDecision ≠ .ALLOWED →
      (∀ r ∈ rules, r.actionType = "WARN") →
      (evalLoop evalCondE ctx elapsed rules s).decision = s.finalDecision
      ∧ (evalLoop evalCondE ctx elapsed rules s).message = s.finalMessage
  | [], s, _, _ => by simp [evalLoop, finalResult, createResult]
  | rule :: rest, s, hdec, hall => by
    have hw : rule.actionType = "WARN" := hall rule (List.mem_cons_self _ _)
    have hrest : ∀ r ∈ rest, r.actionType = "WARN" :=
      fun r hr => hall r (List.mem_cons_of_mem _ hr)
    by_cases hsk : ruleSkipped rule ctx.timestamp
    · simpa [evalLoop, hsk] using
        evalLoop_warnOnly_fields evalCondE ctx elapsed rest s hdec hrest
    · cases hres : evalCondE rule.conditionPayload ctx with
      | error e =>
        simpa [evalLoop, hsk, hres] using
          evalLoop_warnOnly_fields evalCondE ctx elapsed rest s hdec hrest
      | ok b =>
        cases b with
        | false =>
          simpa [evalLoop, hsk, hres] using
            evalLoop_warnOnly_fields evalCondE ctx elapsed rest s hdec hrest
        | true =>
          have hws : warnStep s rule
              = { s with triggeredRules := s.triggeredRules ++ [mkTriggered rule] } := by
            simp [warnStep, hdec]
          have hstep : evalLoop evalCondE ctx elapsed (rule :: rest) s
              = evalLoop evalCondE ctx elapsed rest (warnStep s rule) := by
            simp [evalLoop, hsk, hres, hw]
          rw [hstep, hws]
          exact evalLoop_warnOnly_fields evalCondE ctx elapsed rest _ hdec hrest

/-- C9: a triggered WARN rule folds the state through `warnStep`; from
ALLOWED this sets decision WARNING and captures the rule message, from
any other decision it changes neither decision nor message; and in a
fresh run over WARN rules the final message is that of the first
triggered WARN, unchanged by the later WARN rules. -/
theorem warn_first_message_sticks
    (evalCondE : RuleCondition → RuleEvaluationContext → Except String Bool)
    (ctx : RuleEvaluationContext) (elapsed : Int) (s : EvalState)
    (rule : Rule) (rest : List Rule)
    (hAct : rule.actionType = "WARN")
    (hEff : ruleSkipped rule ctx.timestamp = false)
    (hCond : evalCondE rule.conditionPayload ctx = .ok true) :
    (evalLoop evalCondE ctx elapsed (rule :: rest) s
        = evalLoop evalCondE ctx elapsed rest (warnStep s rule))
    ∧ (s.finalDecision = .ALLOWED →
        (warnStep s rule).finalDecision = .WARNING
        ∧ (warnStep s rule).finalMessage
            = jsStrOr (rule.actionPayload.bind RuleAction.message)
                ("Warning from rule: " ++ rule.name))
    ∧ (s.finalDecision ≠ .ALLOWED →
        (warnStep s rule).finalDecision = s.finalDecision
        ∧ (warnStep s rule).finalMessage = s.finalMessage)
    ∧ ((∀ r ∈ rest, r.actionType = "WARN") →
        (evalLoop evalCondE ctx elapsed (rule :: rest) initState).decision = .WARNING
        ∧ (evalLoop evalCondE ctx elapsed (rule :: rest) initState).message
            = jsStrOr (rule.actionPayload.bind RuleAction.message)
                ("Warning from rule: " ++ rule.name)) := by
  refine ⟨?_, ?_, ?_, ?_⟩
  · simp [evalLoop, hEff, hCond, hAct]
  · intro h; simp [warnStep, h]
  · intro h; simp [warnStep, h]
  · intro hrest
    have hstep : evalLoop evalCondE ctx elapsed (rule :: rest) initState
        = evalLoop evalCondE ctx elapsed rest (warnStep initState rule) := by
      simp [evalLoop, hEff, hCond, hAct]
    have hws : (warnStep initState rule).finalDecision = .WARNING
        ∧ (warnStep initState rule).finalMessage
            = jsStrOr (rule.actionPayload.bind RuleAction.message)
                ("Warning from rule: " ++ rule.name) := by
      simp [warnStep, initState]
    have hpres := evalLoop_warnOnly_fields evalCondE ctx elapsed rest
      (warnStep initState rule) (by rw [hws.1]; intro h; cases h) hrest
    rw [hstep]
    exact ⟨hpres.1.trans hws.1, hpres.2.trans hws.2⟩

/-- Witness for C9: two warning rules in a fresh run keep the first
message. -/
theorem warn_first_message_sticks_witness :
    (evalLoop (evaluateConditionE jsEvalNone) sampleCtx 0 [warnRuleA, warnRuleB]
        initState).decision = .WARNING
    ∧ (evalLoop (evaluateConditionE jsEvalNone) sampleCtx 0 [warnRuleA, warnRuleB]
        initState).message = jsStrOr (warnRuleA.actionPayload.bind RuleAction.message)
          ("Warning from rule: " ++ warnRuleA.name) :=
  (warn_first_message_sticks (evaluateConditionE jsEvalNone) sampleCtx 0 initState
    warnRuleA [warnRuleB] rfl (by decide) rfl).2.2.2
    (by intro r hr; simp [List.mem_singleton] at hr; rw [hr]; rfl)

/-! ### C2: MODIFY decision guard and unconditional merge -/

/-- Helper: `find?` distributes over append. -/
theorem find_append_general {α : Type} (p : α → Bool) :
    ∀ l₁ l₂ : List α, List.find? p (l₁ ++ l₂)
      = match List.find? p l₁ with
        | some x => some x
        | none => List.find? p l₂
  | [], l₂ => by simp
  | a :: t, l₂ => by
    by_cases h : p a
    · simp [List.find?, h]
    · simp only [List.cons_append, List.find?]
      rw [Bool.of_not_eq_true h]
      exact find_append_general p t l₂

/-- Helper: key lookup over a cons whose head carries the key. -/
theorem findKey_cons_eq (k : String) (a : String × JValue) (l : List (String × JValue))
    (h : (a.1 == k) = true) :
    List.find? (fun p => p.1 == k) (a :: l) = some a := by
  simp [List.find?, h]

/-- Helper: key lookup over a cons whose head carries a different key. -/
theorem findKey_cons_ne (k : String) (a : String × JValue) (l : List (String × JValue))
    (h : (a.1 == k) = false) :
    List.find? (fun p => p.1 == k) (a :: l) = List.find? (fun p => p.1 == k) l := by
  simp [List.find?, h]

/-- Helper: replacing the bindings of a present key finds the new value. -/
theorem find_replace_self (k : String) (v : JValue) :
    ∀ m : List (String × JValue), m.any (fun p => p.1 == k) = true →
      (m.map (fun p => if p.1 == k then (k, v) else p)).find? (fun p => p.1 == k)
        = some (k, v)
  | [], h => by simp at h
  | a :: t, h => by
    by_cases ha : (a.1 == k) = true
    · rw [List.map_cons, if_pos ha, findKey_cons_eq k (k, v) _ (beq_self_eq_true k)]
    · have ha' : (a.1 == k) = false := Bool.of_not_eq_true ha
      have ht : t.any (fun p => p.1 == k) = true := by
        simp only [List.any_cons, Bool.or_eq_true] at h
        exact h.resolve_left ha
      rw [List.map_cons, if_neg ha, findKey_cons_ne k a _ ha']
      exact find_replace_self k v t ht

/-- Helper: replacing the bindings of key `k` leaves lookups of a
different key unchanged. -/
theorem find_replace_other (k k' : String) (v : JValue) (hne : k' ≠ k) :
    ∀ m : List (String × JValue),
      (m.map (fun p => if p.1 == k then (k, v) else p)).find? (fun p => p.1 == k')
        = m.find? (fun p => p.1 == k')
  | [] => by simp
  | a :: t => by
    have hkk : (k == k') = false := by
      simp only [beq_eq_false_iff_ne]
      exact fun h => hne h.symm
    by_cases ha : (a.1 == k) = true
    · have hak : a.1 = k := by simpa using ha
      have ha' : (a.1 == k') = false := by rw [hak]; exact hkk
      rw [List.map_cons, if_pos ha, findKey_cons_ne k' (k, v) _ hkk,
        findKey_cons_ne k' a _ ha']
      exact find_replace_other k k' v hne t
    · by_cases hp : (a.1 == k') = true
      · rw [List.map_cons, if_neg ha, findKey_cons_eq k' a _ hp, findKey_cons_eq k' a _ hp]
      · have hp' : (a.1 == k') = false := Bool.of_not_eq_true hp
        rw [List.map_cons, if_neg ha, findKey_cons_ne k' a _ hp', findKey_cons_ne k' a _ hp']
        exact find_replace_other k k' v hne t

/-- Helper: appending a fresh binding finds it when the key is absent. -/
theorem find_append_self (k : String) (v : JValue) :
    ∀ m : List (String × JValue), m.any (fun p => p.1 == k) = false →
      (m ++ [(k, v)]).find? (fun p => p.1 == k) = some (k, v)
  | [], _ => by
    rw [List.nil_append, findKey_cons_eq k (k, v) _ (beq_self_eq_true k)]
  | a :: t, h => by
    simp only [List.any_cons, Bool.or_eq_false_iff] at h
    rw [List.cons_append, findKey_cons_ne k a _ h.1]
    exact find_append_self k v t h.2

/-- Helper: appending a binding of key `k` leaves lookups of a
different key unchanged. -/
theorem find_append_other (k k' : String) (v : JValue) (hne : k' ≠ k) :
    ∀ m : List (String × JValue),
      (m ++ [(k, v)]).find? (fun p => p.1 == k') = m.find? (fun p => p.1 == k')
  | [] => by
    have hkk : (k == k') = false := by
      simp only [beq_eq_false_iff_ne]
      exact fun h => hne h.symm
    rw [List.nil_append, findKey_cons_ne k' (k, v) _ hkk]
  | a :: t => by
    by_cases hp : (a.1 == k') = true
    · rw [List.cons_append, findKey_cons_eq k' a _ hp, findKey_cons_eq k' a _ hp]
    · have hp' : (a.1 == k') = false := Bool.of_not_eq_true hp
      rw [List.cons_append, findKey_cons_ne k' a _ hp', findKey_cons_ne k' a _ hp']
      exact find_append_other k k' v hne t

/-- Spread assignment exposes the assigned value at its key. -/
theorem objGet_objSet_self (m : List (String × JValue)) (k : String) (v : JValue) :
    objGet (objSet m k v) k = some v := by
  by_cases h : m.any (fun p => p.1 == k) = true
  · simp only [objSet, if_pos h, objGet, find_replace_self k v m h, Option.map_some']
  · simp only [objSet, if_neg h, objGet,
      find_append_self k v m (Bool.of_not_eq_true h), Option.map_some']

/-- Spread assignment leaves the other keys unchanged. -/
theorem objGet_objSet_other (m : List (String × JValue)) (k k' : String) (v : JValue)
    (hne : k' ≠ k) : objGet (objSet m k v) k' = objGet m k' := by
  by_cases h : m.any (fun p => p.1 == k) = true
  · simp only [objSet, if_pos h, objGet, find_replace_other k k' v hne m]
  · simp only [objSet, if_neg h, objGet, find_append_other k k' v hne m]

/-- Merging follows last-write-wins per key: a key bound in the merged
map exposes its last binding there, any other key falls through to the
accumulator. -/
theorem objGet_objMerge (k : String) :
    ∀ (b a : List (String × JValue)),
      objGet (objMerge a b) k
        = match lastAssoc b k with
          | some v => some v
          | none => objGet a k
  | [], a => by simp [objMerge, lastAssoc]
  | (k₀, v₀) :: t, a => by
    have hmerge : objMerge a ((k₀, v₀) :: t) = objMerge (objSet a k₀ v₀) t := rfl
    have hlast : lastAssoc ((k₀, v₀) :: t) k
        = match lastAssoc t k with
          | some v => some v
          | none => if (k₀ == k) = true then some v₀ else none := by
      simp only [lastAssoc, List.reverse_cons, find_append_general]
      cases hf : List.find? (fun p => p.1 == k) t.reverse with
      | some x => simp
      | none =>
        simp only [Option.map_none']
        by_cases hk : (k₀ == k) = true
        · simp [List.find?, hk]
        · simp [List.find?, Bool.of_not_eq_true hk]
    rw [hmerge, objGet_objMerge k t (objSet a k₀ v₀), hlast]
    cases hta : lastAssoc t k with
    | some v => rfl
    | none =>
      by_cases hk : (k₀ == k) = true
      · have : k = k₀ := (eq_of_beq hk).symm
        simp [hk, this, objGet_objSet_self]
      · have hne : k ≠ k₀ := by
          intro h; exact hk (by rw [h]; exact beq_self_eq_true k₀)
        simp [hk, objGet_objSet_other a k₀ k v₀ hne]

/-- C2 (amended): a triggered MODIFY rule folds the state through
`modifyStep`; the decision moves to MODIFIED only when it is neither
BLOCKED nor APPROVAL_REQUIRED and is otherwise kept — but the rule
modification map is merged into the accumulator unconditionally, in
particular when the decision is already APPROVAL_REQUIRED; the merge
obeys last-write-wins per key. -/
theorem modify_merges_unconditionally
    (evalCondE : RuleCondition → RuleEvaluationContext → Except String Bool)
    (ctx : RuleEvaluationContext) (elapsed : Int) (s : EvalState)
    (rule : Rule) (rest : List Rule) (mods : List (String × JValue))
    (hAct : rule.actionType = "MODIFY")
    (hEff : ruleSkipped rule ctx.timestamp = false)
    (hCond : evalCondE rule.conditionPayload ctx = .ok true)
    (hMods : rule.actionPayload.bind RuleAction.modifications = some mods) :
    (evalLoop evalCondE ctx elapsed (rule :: rest) s
        = evalLoop evalCondE ctx elapsed rest (modifyStep s rule))
    ∧ (modifyStep s rule).modifications = objMerge s.modifications mods
    ∧ (s.finalDecision ≠ .BLOCKED → s.finalDecision ≠ .APPROVAL_REQUIRED →
        (modifyStep s rule).finalDecision = .MODIFIED)
    ∧ (s.finalDecision = .APPROVAL_REQUIRED →
        (modifyStep s rule).finalDecision = .APPROVAL_REQUIRED)
    ∧ (∀ a b k, objGet (objMerge a b) k
        = match lastAssoc b k with
          | some v => some v
          | none => objGet a k) := by
  refine ⟨?_, ?_, ?_, ?_, fun a b k => objGet_objMerge k b a⟩
  · simp [evalLoop, hEff, hCond, hAct]
  · unfold modifyStep
    simp only [hMods]
    split <;> split <;> rfl
  · intro h1 h2
    unfold modifyStep
    simp only [hMods]
    have : ({ s with triggeredRules := s.triggeredRules ++ [mkTriggered rule] }
        : EvalState).finalDecision ≠ Decision.BLOCKED
        ∧ ({ s with triggeredRules := s.triggeredRules ++ [mkTriggered rule] }
        : EvalState).finalDecision ≠ Decision.APPROVAL_REQUIRED := ⟨h1, h2⟩
    rw [if_pos this]
    split <;> rfl
  · intro h
    unfold modifyStep
    simp only [hMods, h]
    have : ¬ ((Decision.APPROVAL_REQUIRED ≠ Decision.BLOCKED)
        ∧ (Decision.APPROVAL_REQUIRED ≠ Decision.APPROVAL_REQUIRED)) := by
      intro hc; exact hc.2 rfl
    rw [if_neg this]
    split <;> rfl

/-- C2 counterexample to the claim as stated: with an APPROVAL_REQUIRED
decision already in force, a later MODIFY rule still merges its
modification map — the engine result carries the modification while the
decision stays APPROVAL_REQUIRED. -/
theorem modify_merge_counterexample :
    (evaluateRules jsEvalNone [approvalRule, modifyRule] [] sampleCtx dbNow0 0).decision
        = .APPROVAL_REQUIRED
    ∧ (evaluateRules jsEvalNone [approvalRule, modifyRule] [] sampleCtx dbNow0 0).modifications
        = some [("x", JValue.jnum 1)] := by
  constructor <;> decide

/-- Witness for C2 at concrete rules: the loop step and the merge law
at the approval-then-modify fixture. -/
theorem modify_merges_unconditionally_witness :
    evalLoop (evaluateConditionE jsEvalNone) sampleCtx 0 [modifyRule] (approvalStep initState approvalRule)
        = evalLoop (evaluateConditionE jsEvalNone) sampleCtx 0 []
            (modifyStep (approvalStep initState approvalRule) modifyRule)
    ∧ (modifyStep (approvalStep initState approvalRule) modifyRule).modifications
        = objMerge (approvalStep initState approvalRule).modifications [("x", JValue.jnum 1)] :=
  ⟨(modify_merges_unconditionally (evaluateConditionE jsEvalNone) sampleCtx 0
      (approvalStep initState approvalRule) modifyRule [] [("x", JValue.jnum 1)]
      rfl (by decide) rfl rfl).1,
   (modify_merges_unconditionally (evaluateConditionE jsEvalNone) sampleCtx 0
      (approvalStep initState approvalRule) modifyRule [] [("x", JValue.jnum 1)]
      rfl (by decide) rfl rfl).2.1⟩

/-! ### C8: the result is a function of context, rules and exceptions;
only the elapsed-duration input moves `executionTimeMs` -/

/-- Helper: decision, triggered list and modifications of the loop
result do not depend on the elapsed-duration input. -/
theorem evalLoop_elapsed_independent
    (evalCondE : RuleCondition → RuleEvaluationContext → Except String Bool)
    (ctx : RuleEvaluationContext) (e₁ e₂ : Int) :
    ∀ (rules : List Rule) (s : EvalState),
      (evalLoop evalCondE ctx e₁ rules s).decision
          = (evalLoop evalCondE ctx e₂ rules s).decision
      ∧ (evalLoop evalCondE ctx e₁ rules s).triggeredRules
          = (evalLoop evalCondE ctx e₂ rules s).triggeredRules
      ∧ (evalLoop evalCondE ctx e₁ rules s).modifications
          = (evalLoop evalCondE ctx e₂ rules s).modifications
  | [], s => by simp [evalLoop, finalResult, createResult]
  | rule :: rest, s => by
    by_cases hsk : ruleSkipped rule ctx.timestamp
    · simpa [evalLoop, hsk] using
        evalLoop_elapsed_independent evalCondE ctx e₁ e₂ rest s
    · cases hres : evalCondE rule.conditionPayload ctx with
      | error e =>
        simpa [evalLoop, hsk, hres] using
          evalLoop_elapsed_independent evalCondE ctx e₁ e₂ rest s
      | ok b =>
        cases b with
        | false =>
          simpa [evalLoop, hsk, hres] using
            evalLoop_elapsed_independent evalCondE ctx e₁ e₂ rest s
        | true =>
          by_cases h1 : rule.actionType = "BLOCK"
          · simp [evalLoop, hsk, hres, h1, blockResult, createResult]
          · by_cases h2 : rule.actionType = "REQUIRE_APPROVAL"
            · simpa [evalLoop, hsk, hres, h1, h2] using
                evalLoop_elapsed_independent evalCondE ctx e₁ e₂ rest (approvalStep s rule)
            · by_cases h3 : rule.actionType = "MODIFY"
              · simpa [evalLoop, hsk, hres, h1, h2, h3] using
                  evalLoop_elapsed_independent evalCondE ctx e₁ e₂ rest (modifyStep s rule)
              · by_cases h4 : rule.actionType = "WARN"
                · simpa [evalLoop, hsk, hres, h1, h2, h3, h4] using
                    evalLoop_elapsed_independent evalCondE ctx e₁ e₂ rest (warnStep s rule)
                · simpa [evalLoop, hsk, hres, h1, h2, h3, h4] using
                    evalLoop_elapsed_independent evalCondE ctx e₁ e₂ rest
                      { s with triggeredRules := s.triggeredRules ++ [mkTriggered rule] }

/-- C8: two evaluations of an identical context against an unchanged
rule and exception store return the same decision, the same ordered
triggered-rule list and the same modifications, whatever elapsed
durations the two calls measure. -/
theorem evaluation_idempotent_modulo_time
    (jsEval : String → RuleEvaluationContext → Except String Bool)
    (store : List Rule) (exceptions : List RuleException)
    (ctx : RuleEvaluationContext) (dbNow : DateTime) (e₁ e₂ : Int) :
    (evaluateRules jsEval store exceptions ctx dbNow e₁).decision
        = (evaluateRules jsEval store exceptions ctx dbNow e₂).decision
    ∧ (evaluateRules jsEval store exceptions ctx dbNow e₁).triggeredRules
        = (evaluateRules jsEval store exceptions ctx dbNow e₂).triggeredRules
    ∧ (evaluateRules jsEval store exceptions ctx dbNow e₁).modifications
        = (evaluateRules jsEval store exceptions ctx dbNow e₂).modifications := by
  unfold evaluateRules evaluateRulesWith
  by_cases hv : ctx.user.id = "" ∨ ctx.moduleName = "" ∨ ctx.action = ""
  · simp [hv, invalidContextResult]
  · by_cases he : (getActiveRules store ctx.moduleName dbNow).isEmpty
    · simp [hv, he, createResult]
    · by_cases hex : checkRuleException exceptions ctx.user.id
          ((getActiveRules store ctx.moduleName dbNow).map Rule.id) dbNow
      · simp [hv, he, hex, createResult]
      · simp only [hv, if_false, he, hex, Bool.false_eq_true, if_neg]
        simpa [hv, he, hex] using
          evalLoop_elapsed_independent (evaluateConditionE jsEval) ctx e₁ e₂
            (getActiveRules store ctx.moduleName dbNow) initState

/-! ### C10: empty active-rule set short-circuits to ALLOWED without
consulting the exception checker -/

/-- C10: with a valid context and an empty active-rule query result,
the evaluation returns ALLOWED with message "No active rules found" and
no triggered rules, for every exception store alike — and the exception
query itself short-circuits on an empty candidate list. -/
theorem empty_ruleset_allows
    (evalCondE : RuleCondition → RuleEvaluationContext → Except String Bool)
    (store : List Rule) (exceptions : List RuleException)
    (ctx : RuleEvaluationContext) (dbNow : DateTime) (elapsed : Int)
    (hid : ctx.user.id ≠ "") (hmod : ctx.moduleName ≠ "") (hact : ctx.action ≠ "")
    (hempty : getActiveRules store ctx.moduleName dbNow = []) :
    evaluateRulesWith evalCondE store exceptions ctx dbNow elapsed
      = createResult .ALLOWED [] elapsed "No active rules found" none none none
    ∧ checkRuleException exceptions ctx.user.id [] dbNow = false := by
  constructor
  · simp [evaluateRulesWith, hid, hmod, hact, hempty]
  · simp [checkRuleException]

/-- Witness for C10 on an empty store: the exception store is nonempty
yet never reached. -/
theorem empty_ruleset_allows_witness :
    evaluateRulesWith (evaluateConditionE jsEvalNone) [] [sampleException] sampleCtx dbNow0 0
      = createResult .ALLOWED [] 0 "No active rules found" none none none
    ∧ checkRuleException [sampleException] sampleCtx.user.id [] dbNow0 = false :=
  empty_ruleset_allows (evaluateConditionE jsEvalNone) [] [sampleException] sampleCtx
    dbNow0 0 (by decide) (by decide) (by decide) rfl

/-! ### C3: an active covering exception short-circuits to ALLOWED -/

/-- C3 (amended): with a valid context, a nonempty candidate rule set
and an exception covering some candidate rule that is active and within
its window at the query clock, the evaluation returns ALLOWED with the
message "User has rule exception" (capital U in the source), an empty
triggered list, and the same result for every condition evaluator — no
rule condition is evaluated. -/
theorem exception_short_circuits
    (evalCondE : RuleCondition → RuleEvaluationContext → Except String Bool)
    (store : List Rule) (exceptions : List RuleException)
    (ctx : RuleEvaluationContext) (dbNow : DateTime) (elapsed : Int)
    (hid : ctx.user.id ≠ "") (hmod : ctx.moduleName ≠ "") (hact : ctx.action ≠ "")
    (hne : (getActiveRules store ctx.moduleName dbNow).isEmpty = false)
    (hexc : checkRuleException exceptions ctx.user.id
        ((getActiveRules store ctx.moduleName dbNow).map Rule.id) dbNow = true) :
    evaluateRulesWith evalCondE store exceptions ctx dbNow elapsed
      = createResult .ALLOWED [] elapsed "User has rule exception" none none none := by
  simp [evaluateRulesWith, hid, hmod, hact, hne, hexc]

/-- Witness for C3 at a concrete store: one blocking rule, one covering
exception, arbitrary failing condition evaluator. -/
theorem exception_short_circuits_witness :
    evaluateRulesWith failingCondE [blockRule] [sampleException] sampleCtx dbNow0 0
      = createResult .ALLOWED [] 0 "User has rule exception" none none none :=
  exception_short_circuits failingCondE [blockRule] [sampleException] sampleCtx dbNow0 0
    (by decide) (by decide) (by decide) (by decide) (by decide)

/-- C3 counterexample to the claim as stated: the source message is
capitalised ("User has rule exception"), not "user has rule exception"
as the specification quotes it. -/
theorem exception_message_capitalisation :
    (evaluateRules jsEvalNone [blockRule] [sampleException] sampleCtx dbNow0 0).message
        = "User has rule exception"
    ∧ (evaluateRules jsEvalNone [blockRule] [sampleException] sampleCtx dbNow0 0).message
        ≠ "user has rule exception" := by
  constructor <;> decide

/-! ### C5: every internal failure of the condition evaluator yields
false instead of aborting the caller -/

/-- C5: `evaluateCondition` is total by construction and returns
`false` on each internal failure mode: a missing or empty condition
type, an unknown type tag, a threshold over a missing resource field,
an unknown threshold operator, an unparseable clock bound of a
time-based condition, and a failing dynamic expression evaluation. -/
theorem condition_evaluator_never_throws
    (jsEval : String → RuleEvaluationContext → Except String Bool)
    (ctx : RuleEvaluationContext) :
    (∀ c : RuleCondition, c.type = none → evaluateCondition jsEval c ctx = false)
    ∧ (∀ c : RuleCondition, c.type = some "" → evaluateCondition jsEval c ctx = false)
    ∧ (∀ (c : RuleCondition) (t : String), c.type = some t →
        t ≠ "expression" → t ≠ "threshold" → t ≠ "time_based" →
        t ≠ "role_based" → t ≠ "permission_based" → t ≠ "composite" →
        evaluateCondition jsEval c ctx = false)
    ∧ (∀ (c : RuleCondition) (f op : String) (v : JValue),
        c.type = some "threshold" → c.field = some f → c.operator = some op →
        c.value = some v → objGet ctx.resourceData f = none →
        evaluateCondition jsEval c ctx = false)
    ∧ (∀ (c : RuleCondition) (f op : String) (v : JValue),
        c.type = some "threshold" → c.field = some f → c.operator = some op →
        c.value = some v →
        op ≠ "eq" → op ≠ "ne" → op ≠ "gt" → op ≠ "gte" → op ≠ "lt" → op ≠ "lte" →
        op ≠ "in" → op ≠ "nin" → op ≠ "contains" → op ≠ "between" →
        evaluateCondition jsEval c ctx = false)
    ∧ (∀ (c : RuleCondition) (st en : String),
        c.type = some "time_based" → c.timeRange = some (st, en) →
        ((clockHM st).1 = none ∨ (clockHM st).2 = none
          ∨ (clockHM en).1 = none ∨ (clockHM en).2 = none) →
        evaluateCondition jsEval c ctx = false)
    ∧ (∀ (c : RuleCondition) (e msg : String),
        c.type = some "expression" → c.expression = some e →
        jsEval e ctx = .error msg → evaluateCondition jsEval c ctx = false) := by
  refine ⟨?_, ?_, ?_, ?_, ?_, ?_, ?_⟩
  · intro c h
    cases c with
    | mk ty ex fl op vl tr dr ro pe lg cs =>
      simp only [RuleCondition.type] at h
      subst h
      simp [evaluateCondition]
  · intro c h
    cases c with
    | mk ty ex fl op vl tr dr ro pe lg cs =>
      simp only [RuleCondition.type] at h
      subst h
      simp [evaluateCondition]
  · intro c t h h1 h2 h3 h4 h5 h6
    cases c with
    | mk ty ex fl op vl tr dr ro pe lg cs =>
      simp only [RuleCondition.type] at h
      subst h
      by_cases h0 : t = ""
      · simp [evaluateCondition, h0]
      · simp [evaluateCondition, h0, h1, h2, h3, h4, h5, h6]
  · intro c f op v hty hf hop hv hmiss
    cases c with
    | mk ty ex fl o vl tr dr ro pe lg cs =>
      simp only [RuleCondition.type] at hty
      simp only [RuleCondition.field] at hf
      simp only [RuleCondition.operator] at hop
      simp only [RuleCondition.value] at hv
      subst hty; subst hf; subst hop; subst hv
      by_cases hguard : f = "" ∨ op = ""
      · simp [evaluateCondition, evaluateThreshold, RuleCondition.field,
          RuleCondition.operator, RuleCondition.value, hguard]
      · simp [evaluateCondition, evaluateThreshold, RuleCondition.field,
          RuleCondition.operator, RuleCondition.value, hguard, hmiss]
  · intro c f op v hty hf hop hv h1 h2 h3 h4 h5 h6 h7 h8 h9 h10
    cases c with
    | mk ty ex fl o vl tr dr ro pe lg cs =>
      simp only [RuleCondition.type] at hty
      simp only [RuleCondition.field] at hf
      simp only [RuleCondition.operator] at hop
      simp only [RuleCondition.value] at hv
      subst hty; subst hf; subst hop; subst hv
      by_cases hguard : f = "" ∨ op = ""
      · simp [evaluateCondition, evaluateThreshold, RuleCondition.field,
          RuleCondition.operator, RuleCondition.value, hguard]
      · cases hlook : objGet ctx.resourceData f with
        | none =>
          simp [evaluateCondition, evaluateThreshold, RuleCondition.field,
            RuleCondition.operator, RuleCondition.value, hguard, hlook]
        | some fv =>
          cases fv with
          | prim p =>
            cases p with
            | jnull =>
              simp [evaluateCondition, evaluateThreshold, RuleCondition.field,
                RuleCondition.operator, RuleCondition.value, hguard, hlook, JValue.jnull]
            | jbool b =>
              simp [evaluateCondition, evaluateThreshold, RuleCondition.field,
                RuleCondition.operator, RuleCondition.value, hguard, hlook,
                thresholdCompare, h1, h2, h3, h4, h5, h6, h7, h8, h9, h10]
            | jnum n =>
              simp [evaluateCondition, evaluateThreshold, RuleCondition.field,
                RuleCondition.operator, RuleCondition.value, hguard, hlook,
                thresholdCompare, h1, h2, h3, h4, h5, h6, h7, h8, h9, h10]
            | jstr s =>
              simp [evaluateCondition, evaluateThreshold, RuleCondition.field,
                RuleCondition.operator, RuleCondition.value, hguard, hlook,
                thresholdCompare, h1, h2, h3, h4, h5, h6, h7, h8, h9, h10]
          | jarr xs =>
            simp [evaluateCondition, evaluateThreshold, RuleCondition.field,
              RuleCondition.operator, RuleCondition.value, hguard, hlook,
              thresholdCompare, h1, h2, h3, h4, h5, h6, h7, h8, h9, h10]
  · intro c st en hty htr hbad
    cases c with
    | mk ty ex fl o vl tr dr ro pe lg cs =>
      simp only [RuleCondition.type] at hty
      simp only [RuleCondition.timeRange] at htr
      subst hty; subst htr
      rcases hp : clockHM st with ⟨sh, sm⟩
      rcases hq : clockHM en with ⟨eh, em⟩
      rw [hp, hq] at hbad
      simp only at hbad
      cases sh <;> cases sm <;> cases eh <;> cases em <;>
        simp_all [evaluateCondition, evaluateTimeBased, RuleCondition.timeRange, hp, hq]
  · intro c e msg hty hex hfail
    cases c with
    | mk ty ex fl o vl tr dr ro pe lg cs =>
      simp only [RuleCondition.type] at hty
      simp only [RuleCondition.expression] at hex
      subst hty; subst hex
      by_cases he : e = ""
      · simp [evaluateCondition, evaluateExpression, RuleCondition.expression, he]
      · simp [evaluateCondition, evaluateExpression, RuleCondition.expression, he, hfail]

/-- Fixture: a condition with an unknown type tag. -/
def condUnknownType : RuleCondition :=
  .mk (some "mystery") none none none none none none none none none .nil

/-- Fixture: a threshold condition over a field absent from the sample
resource data. -/
def condMissingField : RuleCondition :=
  .mk (some "threshold") none (some "absent") (some "lt") (some (JValue.jnum 40))
    none none none none none .nil

/-- Fixture: a threshold condition with an unknown operator. -/
def condBadOperator : RuleCondition :=
  .mk (some "threshold") none (some "percentage") (some "matches")
    (some (JValue.jnum 40)) none none none none none .nil

/-- Fixture: a time-based condition with an unparseable clock bound. -/
def condBadClock : RuleCondition :=
  .mk (some "time_based") none none none none (some ("ab:cd", "17:00"))
    none none none none .nil

/-- Fixture: an expression condition whose dynamic evaluation fails. -/
def condFailingExpr : RuleCondition :=
  .mk (some "expression") (some "data.percentage < 40") none none none
    none none none none none .nil

/-- Witness for C5: each failure mode evaluated at a concrete
condition returns false. -/
theorem condition_evaluator_never_throws_witness :
    evaluateCondition jsEvalNone condUnknownType sampleCtx = false
    ∧ evaluateCondition jsEvalNone condMissingField sampleCtx = false
    ∧ evaluateCondition jsEvalNone condBadOperator sampleCtx = false
    ∧ evaluateCondition jsEvalNone condBadClock sampleCtx = false
    ∧ evaluateCondition jsEvalNone condFailingExpr sampleCtx = false :=
  ⟨(condition_evaluator_never_throws jsEvalNone sampleCtx).2.2.1 condUnknownType
      "mystery" rfl (by decide) (by decide) (by decide) (by decide) (by decide) (by decide),
   (condition_evaluator_never_throws jsEvalNone sampleCtx).2.2.2.1 condMissingField
      "absent" "lt" (JValue.jnum 40) rfl rfl rfl rfl (by decide),
   (condition_evaluator_never_throws jsEvalNone sampleCtx).2.2.2.2.1 condBadOperator
      "percentage" "matches" (JValue.jnum 40) rfl rfl rfl rfl
      (by decide) (by decide) (by decide) (by decide) (by decide) (by decide)
      (by decide) (by decide) (by decide) (by decide),
   (condition_evaluator_never_throws jsEvalNone sampleCtx).2.2.2.2.2.1 condBadClock
      "ab:cd" "17:00" rfl rfl (by decide),
   (condition_evaluator_never_throws jsEvalNone sampleCtx).2.2.2.2.2.2 condFailingExpr
      "data.percentage < 40" "dynamic evaluation not modelled" rfl rfl rfl⟩

/-! ### C4: the resolver output is invariant under reordering of the
store, as long as (priority, creation time) pairs are distinct -/

/-- The sort key of the store query: priority then creation time. -/
def ruleKey (r : Rule) : Int × Int := (r.priority, r.createdAt)

/-- Two rules below and above each other in the query order share their
sort key. -/
theorem ruleLE_antisymm_key {a b : Rule} (h1 : ruleLE a b) (h2 : ruleLE b a) :
    ruleKey a = ruleKey b := by
  unfold ruleLE at h1 h2
  have hp : a.priority = b.priority := by omega
  have hc : a.createdAt = b.createdAt := by omega
  simp [ruleKey, hp, hc]

/-- Helper: two sorted lists that are permutations of each other are
equal when the order is antisymmetric on their members. -/
theorem eq_of_perm_of_sorted_antisymmOn {α : Type} (le : α → α → Prop) :
    ∀ (l₁ l₂ : List α), l₁.Perm l₂ → l₁.Sorted le → l₂.Sorted le →
      (∀ a ∈ l₁, ∀ b ∈ l₁, le a b → le b a → a = b) → l₁ = l₂
  | [], l₂, hp, _, _, _ => (hp.symm.eq_nil).symm
  | a :: t₁, l₂, hp, hs₁, hs₂, hanti => by
    cases l₂ with
    | nil => exact absurd hp.eq_nil (List.cons_ne_nil a t₁)
    | cons b t₂ =>
      have hab : a = b := by
        by_cases hne : a = b
        · exact hne
        · have hamem : a ∈ b :: t₂ := hp.subset (List.mem_cons_self a t₁)
          have hbmem : b ∈ a :: t₁ := hp.symm.subset (List.mem_cons_self b t₂)
          have hat2 : a ∈ t₂ := by
            cases hamem with
            | head => exact absurd rfl hne
            | tail _ h => exact h
          have hbt1 : b ∈ t₁ := by
            cases hbmem with
            | head => exact absurd rfl (fun h => hne h.symm)
            | tail _ h => exact h
          have hba : le b a := List.rel_of_sorted_cons hs₂ a hat2
          have hab' : le a b := List.rel_of_sorted_cons hs₁ b hbt1
          exact hanti a (List.mem_cons_self a t₁) b (List.mem_cons_of_mem a hbt1)
            hab' hba
      subst hab
      have hp' : t₁.Perm t₂ := hp.cons_inv
      have ih := eq_of_perm_of_sorted_antisymmOn le t₁ t₂ hp' hs₁.of_cons hs₂.of_cons
        (fun x hx y hy => hanti x (List.mem_cons_of_mem a hx) y (List.mem_cons_of_mem a hy))
      rw [ih]

/-- Helper: the store query is order-blind — a permuted store with
distinct sort keys among the module candidates yields the same ordered
rule list. -/
theorem getActiveRules_perm_eq (store₁ store₂ : List Rule) (moduleName : String)
    (dbNow : DateTime) (hperm : store₁.Perm store₂)
    (hnodup : ((store₁.filter (activeRuleFilter moduleName dbNow)).map ruleKey).Nodup) :
    getActiveRules store₁ moduleName dbNow = getActiveRules store₂ moduleName dbNow := by
  unfold getActiveRules
  have hpf : (store₁.filter (activeRuleFilter moduleName dbNow)).Perm
      (store₂.filter (activeRuleFilter moduleName dbNow)) := hperm.filter _
  apply eq_of_perm_of_sorted_antisymmOn ruleLE
  · exact (List.perm_insertionSort ruleLE _).trans
      (hpf.trans (List.perm_insertionSort ruleLE _).symm)
  · exact List.sorted_insertionSort ruleLE _
  · exact List.sorted_insertionSort ruleLE _
  · intro a ha b hb h1 h2
    have ha' : a ∈ store₁.filter (activeRuleFilter moduleName dbNow) :=
      (List.mem_insertionSort ruleLE).mp ha
    have hb' : b ∈ store₁.filter (activeRuleFilter moduleName dbNow) :=
      (List.mem_insertionSort ruleLE).mp hb
    exact List.inj_on_of_nodup_map hnodup ha' hb' (ruleLE_antisymm_key h1 h2)

/-- C4 (amended): permuting the rule store does not change the
evaluation result, provided no two candidate rules of the module share
both priority and creation time; with such a tie the order between the
tied rules, and hence the result, is not determined by the store
content. -/
theorem resolver_order_invariance
    (evalCondE : RuleCondition → RuleEvaluationContext → Except String Bool)
    (store₁ store₂ : List Rule) (exceptions : List RuleException)
    (ctx : RuleEvaluationContext) (dbNow : DateTime) (elapsed : Int)
    (hperm : store₁.Perm store₂)
    (hnodup : ((store₁.filter (activeRuleFilter ctx.moduleName dbNow)).map ruleKey).Nodup) :
    evaluateRulesWith evalCondE store₁ exceptions ctx dbNow elapsed
      = evaluateRulesWith evalCondE store₂ exceptions ctx dbNow elapsed := by
  have hga := getActiveRules_perm_eq store₁ store₂ ctx.moduleName dbNow hperm hnodup
  unfold evaluateRulesWith
  rw [hga]

/-- Witness for C4 at two distinct-priority rules: both orders of the
store produce the same result. -/
theorem resolver_order_invariance_witness :
    evaluateRulesWith (evaluateConditionE jsEvalNone) [approvalRule, modifyRule] []
        sampleCtx dbNow0 0
      = evaluateRulesWith (evaluateConditionE jsEvalNone) [modifyRule, approvalRule] []
        sampleCtx dbNow0 0 :=
  resolver_order_invariance (evaluateConditionE jsEvalNone) [approvalRule, modifyRule]
    [modifyRule, approvalRule] [] sampleCtx dbNow0 0
    (List.Perm.swap modifyRule approvalRule []) (by decide)

/-- C4 counterexample to the claim as stated: two WARN rules tied on
priority and creation time. Reordering the store flips which message
the result carries, so the output is not a function of the rule set
alone. -/
theorem resolver_order_dependence_on_ties :
    ([warnRuleA, warnRuleB].Perm [warnRuleB, warnRuleA])
    ∧ (evaluateRules jsEvalNone [warnRuleA, warnRuleB] [] sampleCtx dbNow0 0).message
        = "Warning from rule: A"
    ∧ (evaluateRules jsEvalNone [warnRuleB, warnRuleA] [] sampleCtx dbNow0 0).message
        = "Warning from rule: B"
    ∧ evaluateRules jsEvalNone [warnRuleA, warnRuleB] [] sampleCtx dbNow0 0
        ≠ evaluateRules jsEvalNone [warnRuleB, warnRuleA] [] sampleCtx dbNow0 0 :=
  ⟨List.Perm.swap warnRuleB warnRuleA [], by decide, by decide, by decide⟩

/-! ### C7: update inserts a superseding version and deactivates the
parent, which can then never trigger -/

/-- Helper: the approval branch only appends to the triggered list. -/
theorem approvalStep_triggeredRules (s : EvalState) (rule : Rule) :
    (approvalStep s rule).triggeredRules = s.triggeredRules ++ [mkTriggered rule] := by
  unfold approvalStep
  cases ha : rule.actionPayload.bind RuleAction.approvers <;>
    by_cases h1 : s.finalDecision ≠ Decision.BLOCKED <;>
    simp [ha, h1]

/-- Helper: the modify branch only appends to the triggered list. -/
theorem modifyStep_triggeredRules (s : EvalState) (rule : Rule) :
    (modifyStep s rule).triggeredRules = s.triggeredRules ++ [mkTriggered rule] := by
  unfold modifyStep
  cases hm : rule.actionPayload.bind RuleAction.modifications <;>
    by_cases h1 : s.finalDecision ≠ Decision.BLOCKED ∧ s.finalDecision ≠ Decision.APPROVAL_REQUIRED <;>
    by_cases h2 : s.finalMessage = "" <;>
    simp [hm, h1, h2]

/-- Helper: the warn branch only appends to the triggered list. -/
theorem warnStep_triggeredRules (s : EvalState) (rule : Rule) :
    (warnStep s rule).triggeredRules = s.triggeredRules ++ [mkTriggered rule] := by
  unfold warnStep
  by_cases h1 : s.finalDecision = Decision.ALLOWED <;> simp [h1]

/-- Helper: every triggered-rule entry of a loop result carries the id
of a rule of the input list or of the incoming state. -/
theorem evalLoop_triggered_from
    (evalCondE : RuleCondition → RuleEvaluationContext → Except String Bool)
    (ctx : RuleEvaluationContext) (elapsed : Int) (P : String → Prop) :
    ∀ (rules : List Rule) (s : EvalState),
      (∀ t ∈ s.triggeredRules, P t.ruleId) → (∀ r ∈ rules, P r.id) →
      ∀ t ∈ (evalLoop evalCondE ctx elapsed rules s).triggeredRules, P t.ruleId
  | [], s, hs, _, t, ht => by
    simp only [evalLoop, finalResult, createResult] at ht
    exact hs t ht
  | rule :: rest, s, hs, hr, t, ht => by
    have hrule : P rule.id := hr rule (List.mem_cons_self _ _)
    have hrest : ∀ r ∈ rest, P r.id := fun r h => hr r (List.mem_cons_of_mem _ h)
    have happend : ∀ u ∈ s.triggeredRules ++ [mkTriggered rule], P u.ruleId := by
      intro u hu
      rcases List.mem_append.mp hu with h | h
      · exact hs u h
      · rw [List.mem_singleton.mp h]
        exact hrule
    by_cases hsk : ruleSkipped rule ctx.timestamp
    · rw [show evalLoop evalCondE ctx elapsed (rule :: rest) s
          = evalLoop evalCondE ctx elapsed rest s from by simp [evalLoop, hsk]] at ht
      exact evalLoop_triggered_from evalCondE ctx elapsed P rest s hs hrest t ht
    · cases hres : evalCondE rule.conditionPayload ctx with
      | error e =>
        rw [show evalLoop evalCondE ctx elapsed (rule :: rest) s
            = evalLoop evalCondE ctx elapsed rest s from by simp [evalLoop, hsk, hres]] at ht
        exact evalLoop_triggered_from evalCondE ctx elapsed P rest s hs hrest t ht
      | ok b =>
        cases b with
        | false =>
          rw [show evalLoop evalCondE ctx elapsed (rule :: rest) s
              = evalLoop evalCondE ctx elapsed rest s from by
                simp [evalLoop, hsk, hres]] at ht
          exact evalLoop_triggered_from evalCondE ctx elapsed P rest s hs hrest t ht
        | true =>
          by_cases h1 : rule.actionType = "BLOCK"
          · rw [show evalLoop evalCondE ctx elapsed (rule :: rest) s
                = blockResult s rule elapsed from by simp [evalLoop, hsk, hres, h1]] at ht
            simp only [blockResult, createResult] at ht
            exact happend t ht
          · by_cases h2 : rule.actionType = "REQUIRE_APPROVAL"
            · rw [show evalLoop evalCondE ctx elapsed (rule :: rest) s
                  = evalLoop evalCondE ctx elapsed rest (approvalStep s rule) from by
                    simp [evalLoop, hsk, hres, h1, h2]] at ht
              refine evalLoop_triggered_from evalCondE ctx elapsed P rest
                (approvalStep s rule) ?_ hrest t ht
              rw [approvalStep_triggeredRules]
              exact happend
            · by_cases h3 : rule.actionType = "MODIFY"
              · rw [show evalLoop evalCondE ctx elapsed (rule :: rest) s
                    = evalLoop evalCondE ctx elapsed rest (modifyStep s rule) from by
                      simp [evalLoop, hsk, hres, h1, h2, h3]] at ht
                refine evalLoop_triggered_from evalCondE ctx elapsed P rest
                  (modifyStep s rule) ?_ hrest t ht
                rw [modifyStep_triggeredRules]
                exact happend
              · by_cases h4 : rule.actionType = "WARN"
                · rw [show evalLoop evalCondE ctx elapsed (rule :: rest) s
                      = evalLoop evalCondE ctx elapsed rest (warnStep s rule) from by
                        simp [evalLoop, hsk, hres, h1, h2, h3, h4]] at ht
                  refine evalLoop_triggered_from evalCondE ctx elapsed P rest
                    (warnStep s rule) ?_ hrest t ht
                  rw [warnStep_triggeredRules]
                  exact happend
                · rw [show evalLoop evalCondE ctx elapsed (rule :: rest) s
                      = evalLoop evalCondE ctx elapsed rest
                          { s with triggeredRules := s.triggeredRules ++ [mkTriggered rule] }
                      from by simp [evalLoop, hsk, hres, h1, h2, h3, h4]] at ht
                  exact evalLoop_triggered_from evalCondE ctx elapsed P rest
                    { s with triggeredRules := s.triggeredRules ++ [mkTriggered rule] }
                    happend hrest t ht

/-- Helper: no rule carrying the parent id remains active after the
deactivation pass of `updateRule`, so no result of a later evaluation
over the updated store triggers it. -/
theorem triggered_never_parent
    (store' : List Rule) (ruleId : String)
    (hinactive : ∀ r ∈ store', r.id = ruleId → r.isActive = false)
    (evalCondE : RuleCondition → RuleEvaluationContext → Except String Bool)
    (exceptions : List RuleException) (ctx : RuleEvaluationContext)
    (dbNow : DateTime) (elapsed : Int) :
    ∀ t ∈ (evaluateRulesWith evalCondE store' exceptions ctx dbNow elapsed).triggeredRules,
      t.ruleId ≠ ruleId := by
  have hcand : ∀ r ∈ getActiveRules store' ctx.moduleName dbNow, r.id ≠ ruleId := by
    intro r hr heq
    have hrf : r ∈ store'.filter (activeRuleFilter ctx.moduleName dbNow) :=
      (List.mem_insertionSort ruleLE).mp hr
    have hrs : r ∈ store' := List.mem_of_mem_filter hrf
    have hf : activeRuleFilter ctx.moduleName dbNow r = true := List.of_mem_filter hrf
    have hact : r.isActive = true := by
      simp only [activeRuleFilter, Bool.and_eq_true] at hf
      exact hf.1.1.2
    rw [hinactive r hrs heq] at hact
    cases hact
  unfold evaluateRulesWith
  by_cases hv : ctx.user.id = "" ∨ ctx.moduleName = "" ∨ ctx.action = ""
  · simp [hv, invalidContextResult]
  · by_cases he : (getActiveRules store' ctx.moduleName dbNow).isEmpty
    · simp [hv, he, createResult]
    · by_cases hex : checkRuleException exceptions ctx.user.id
          ((getActiveRules store' ctx.moduleName dbNow).map Rule.id) dbNow
      · simp [hv, he, hex, createResult]
      · simp only [hv, if_false, he, hex, Bool.false_eq_true, if_neg]
        intro t ht
        have := evalLoop_triggered_from evalCondE ctx elapsed (fun i => i ≠ ruleId)
          (getActiveRules store' ctx.moduleName dbNow) initState
          (by intro u hu; simp [initState] at hu) hcand t
        apply this
        simpa [hv, he, hex] using ht

/-- C7 (amended): `updateRule` inserts a new row whose version is the
parent version plus one and whose `parentRuleId` is the parent id,
copying each unspecified DTO field from the parent except `effectiveTo`,
which is taken from the DTO as-is (null when unspecified); it then
deactivates the parent row, so no subsequent evaluation over the
updated store ever triggers the parent. -/
theorem update_creates_new_version
    (store : List Rule) (ruleId : String) (data : UpdateRuleDTO)
    (updatedBy newId : String) (nowMs : Int) (parent : Rule)
    (hfind : store.find? (fun r => r.id == ruleId) = some parent) :
    ∃ store',
      updateRule store ruleId data updatedBy newId nowMs
        = .ok (newVersionRule parent data ruleId updatedBy newId nowMs, store')
      ∧ (newVersionRule parent data ruleId updatedBy newId nowMs).version
          = parent.version + 1
      ∧ (newVersionRule parent data ruleId updatedBy newId nowMs).parentRuleId
          = some ruleId
      ∧ (newVersionRule parent data ruleId updatedBy newId nowMs).effectiveTo
          = data.effectiveTo
      ∧ (data.name = none →
          (newVersionRule parent data ruleId updatedBy newId nowMs).name = parent.name)
      ∧ (data.description = none →
          (newVersionRule parent data ruleId updatedBy newId nowMs).description
            = parent.description)
      ∧ (data.conditionPayload = none →
          (newVersionRule parent data ruleId updatedBy newId nowMs).conditionPayload
            = parent.conditionPayload)
      ∧ (data.actionPayload = none →
          (newVersionRule parent data ruleId updatedBy newId nowMs).actionPayload
            = parent.actionPayload)
      ∧ (data.severityLevel = none →
          (newVersionRule parent data ruleId updatedBy newId nowMs).severityLevel
            = parent.severityLevel)
      ∧ (data.priority = none →
          (newVersionRule parent data ruleId updatedBy newId nowMs).priority
            = parent.priority)
      ∧ (data.effectiveFrom = none →
          (newVersionRule parent data ruleId updatedBy newId nowMs).effectiveFrom
            = parent.effectiveFrom)
      ∧ (newVersionRule parent data ruleId updatedBy newId nowMs).moduleName
          = parent.moduleName
      ∧ (∀ r ∈ store', r.id = ruleId → r.isActive = false)
      ∧ (∀ evalCondE exceptions ctx dbNow elapsed,
          ∀ t ∈ (evaluateRulesWith evalCondE store' exceptions ctx
              dbNow elapsed).triggeredRules, t.ruleId ≠ ruleId) := by
  refine ⟨(store ++ [newVersionRule parent data ruleId updatedBy newId nowMs]).map
      (fun r => if r.id == ruleId then { r with isActive := false } else r),
    ?_, rfl, rfl, rfl,
    ?_, ?_, ?_, ?_, ?_, ?_, ?_, rfl, ?_, ?_⟩
  · unfold updateRule
    rw [hfind]
  · intro h; simp [newVersionRule, h, jsStrOr]
  · intro h; simp [newVersionRule, h, jsOptStrOr]
  · intro h; simp [newVersionRule, h]
  · intro h; simp [newVersionRule, h]
  · intro h; simp [newVersionRule, h, jsStrOr]
  · intro h; simp [newVersionRule, h]
  · intro h; simp [newVersionRule, h]
  · intro r hr heq
    rcases List.mem_map.mp hr with ⟨orig, _, hmap⟩
    by_cases hid : (orig.id == ruleId) = true
    · rw [if_pos hid] at hmap
      rw [← hmap]
    · rw [if_neg hid] at hmap
      subst hmap
      exact absurd (by simpa using heq) hid
  · intro evalCondE exceptions ctx dbNow elapsed
    apply triggered_never_parent
    intro r hr heq
    rcases List.mem_map.mp hr with ⟨orig, _, hmap⟩
    by_cases hid : (orig.id == ruleId) = true
    · rw [if_pos hid] at hmap
      rw [← hmap]
    · rw [if_neg hid] at hmap
      subst hmap
      exact absurd (by simpa using heq) hid

/-- Fixture: a parent rule carrying an effective-to bound. -/
def parentRule7 : Rule :=
  { baseRule with id := "p1", name := "parent", effectiveTo := some 999, version := 3 }

/-- Fixture: an update DTO that leaves every field unspecified. -/
def emptyDTO : UpdateRuleDTO :=
  { name := none, description := none, conditionPayload := none, actionPayload := none
    severityLevel := none, priority := none, isActive := none
    effectiveFrom := none, effectiveTo := none }

/-- Witness for C7 at a concrete one-rule store and an empty DTO. -/
theorem update_creates_new_version_witness :
    ∃ store',
      updateRule [parentRule7] "p1" emptyDTO "admin" "p2" 5000
        = .ok (newVersionRule parentRule7 emptyDTO "p1" "admin" "p2" 5000, store')
      ∧ (newVersionRule parentRule7 emptyDTO "p1" "admin" "p2" 5000).version
          = parentRule7.version + 1
      ∧ (newVersionRule parentRule7 emptyDTO "p1" "admin" "p2" 5000).parentRuleId
          = some "p1"
      ∧ (newVersionRule parentRule7 emptyDTO "p1" "admin" "p2" 5000).effectiveTo
          = emptyDTO.effectiveTo
      ∧ (emptyDTO.name = none →
          (newVersionRule parentRule7 emptyDTO "p1" "admin" "p2" 5000).name
            = parentRule7.name)
      ∧ (emptyDTO.description = none →
          (newVersionRule parentRule7 emptyDTO "p1" "admin" "p2" 5000).description
            = parentRule7.description)
      ∧ (emptyDTO.conditionPayload = none →
          (newVersionRule parentRule7 emptyDTO "p1" "admin" "p2" 5000).conditionPayload
            = parentRule7.conditionPayload)
      ∧ (emptyDTO.actionPayload = none →
          (newVersionRule parentRule7 emptyDTO "p1" "admin" "p2" 5000).actionPayload
            = parentRule7.actionPayload)
      ∧ (emptyDTO.severityLevel = none →
          (newVersionRule parentRule7 emptyDTO "p1" "admin" "p2" 5000).severityLevel
            = parentRule7.severityLevel)
      ∧ (emptyDTO.priority = none →
          (newVersionRule parentRule7 emptyDTO "p1" "admin" "p2" 5000).priority
            = parentRule7.priority)
      ∧ (emptyDTO.effectiveFrom = none →
          (newVersionRule parentRule7 emptyDTO "p1" "admin" "p2" 5000).effectiveFrom
            = parentRule7.effectiveFrom)
      ∧ (newVersionRule parentRule7 emptyDTO "p1" "admin" "p2" 5000).moduleName
          = parentRule7.moduleName
      ∧ (∀ r ∈ store', r.id = "p1" → r.isActive = false)
      ∧ (∀ evalCondE exceptions ctx dbNow elapsed,
          ∀ t ∈ (evaluateRulesWith evalCondE store' exceptions ctx
              dbNow elapsed).triggeredRules, t.ruleId ≠ "p1") :=
  update_creates_new_version [parentRule7] "p1" emptyDTO "admin" "p2" 5000 parentRule7
    rfl

/-- C7 counterexample to the claim as stated: with an unspecified DTO
`effectiveTo`, the inserted version does not copy the parent bound —
the parent carries `effectiveTo = 999` while the new version carries
none. -/
theorem update_drops_parent_effectiveTo :
    ∃ newRule store',
      updateRule [parentRule7] "p1" emptyDTO "admin" "p2" 5000 = .ok (newRule, store')
      ∧ newRule.effectiveTo = none
      ∧ parentRule7.effectiveTo = some 999
      ∧ newRule.effectiveTo ≠ parentRule7.effectiveTo := by
  refine ⟨_, _, rfl, rfl, rfl, by decide⟩

end RulesEngine
